import Mathlib

/-!
Shallow embedding of `src/grid/mod.rs`: a two-dimensional sparse container
supporting signed coordinates.  `isize` is modelled by `Int` (the spec treats
indices as mathematical signed integers; no arithmetic in the code can
overflow for the inputs of interest).  Rust `Vec` is modelled by `List`,
`Option` by `Option`.  Operations that can panic (slice indexing out of
bounds, `Option::unwrap`) return `Option _`, with `none` marking the panic.
-/

namespace RustGrid

/-- Rust `enum Existence { Positive, Negative, Nonexistent }` (mod.rs 1-5). -/
inductive Existence where
  | Positive
  | Negative
  | Nonexistent
deriving DecidableEq

/-- Rust `struct NegativeIndexVec<T> { positive: Vec<Option<T>>, negative: Vec<Option<T>> }`
(mod.rs 37-41). -/
structure NegativeIndexVec (T : Type) where
  positive : List (Option T)
  negative : List (Option T)
deriving DecidableEq

/-- The trait's growth loop `for _ in len..target { push default }` in closed
form: append `default` elements until the list has length `target` (a no-op
when it is already at least that long). -/
def padTo {α : Type} (l : List α) (d : α) (target : Nat) : List α :=
  l ++ List.replicate (target - l.length) d

namespace NegativeIndexVec

variable {T : Type}

/-- `NegativeIndexVec::new` (mod.rs 62-67). -/
def new : NegativeIndexVec T := ⟨[], []⟩

/-- Trait method `NegativeIndexed::existence` as implemented for
`NegativeIndexVec` (mod.rs 8-16): Positive when `0 ≤ index < positive.len()`,
Negative when `index < 0` and `|index| ≤ negative.len()`, else Nonexistent.
`index as usize` is `Int.toNat` (the guard makes the index non-negative). -/
def existence (a : NegativeIndexVec T) (index : Int) : Existence :=
  if 0 ≤ index ∧ index.toNat < a.positive.length then .Positive
  else if index < 0 ∧ index.natAbs ≤ a.negative.length then .Negative
  else .Nonexistent

/-- Trait method `NegativeIndexed::assert_size` for `NegativeIndexVec`
(mod.rs 18-28): for `size ≥ 0` push `None` onto `positive` for each index in
`positive.len()..=size` (so its length strictly exceeds `size`); for
`size < 0` push `None` onto `negative` for each index in
`negative.len()..|size|` (so its length is at least `|size|`). -/
def assert_size (a : NegativeIndexVec T) (size : Int) : NegativeIndexVec T :=
  if 0 ≤ size then { a with positive := padTo a.positive none (size.toNat + 1) }
  else { a with negative := padTo a.negative none size.natAbs }

/-- `NegativeIndexVec::set` (mod.rs 69-77): grow, then write `Some item` at
`positive[index]` resp. `negative[|index| - 1]`.  The Rust slice write
`self.positive[i] = ...` panics when `i` is out of bounds; that panic is the
`none` result. -/
def set (a : NegativeIndexVec T) (index : Int) (item : T) :
    Option (NegativeIndexVec T) :=
  let a := a.assert_size index
  if 0 ≤ index then
    if index.toNat < a.positive.length then
      some { a with positive := a.positive.set index.toNat (some item) }
    else none
  else
    if index.natAbs - 1 < a.negative.length then
      some { a with negative := a.negative.set (index.natAbs - 1) (some item) }
    else none

/-- `NegativeIndexVec::get` (mod.rs 79-85): classify, then read the slot.
The result is `some slot` where `slot : Option T` is the slot's content
(`as_ref` of the `Option<T>` cell), `some none` for a Nonexistent index, and
`none` when the slice indexing would panic. -/
def get (a : NegativeIndexVec T) (index : Int) : Option (Option T) :=
  match a.existence index with
  | .Positive => a.positive[index.toNat]?
  | .Negative => a.negative[index.natAbs - 1]?
  | .Nonexistent => some none

/-- `NegativeIndexVec::get_mut` (mod.rs 87-93): same lookup as `get`
(`as_mut` instead of `as_ref`); in this functional model the value read
through the mutable handle is returned and the axis is unchanged. -/
def get_mut (a : NegativeIndexVec T) (index : Int) : Option (Option T) :=
  match a.existence index with
  | .Positive => a.positive[index.toNat]?
  | .Negative => a.negative[index.natAbs - 1]?
  | .Nonexistent => some none

/-- The mathematical content of the axis: the value stored at logical index
`index` (`none` when the slot is empty or outside the grown range).  This is
the abstraction the round-trip proofs go through. -/
def content (a : NegativeIndexVec T) (index : Int) : Option T :=
  if 0 ≤ index then a.positive.getD index.toNat none
  else a.negative.getD (index.natAbs - 1) none

/-- Run a sequence of `set` calls starting from the axis `a`, propagating a
panic (`none`) if any write panics. -/
def applyFrom (a : NegativeIndexVec T) (ws : List (Int × T)) :
    Option (NegativeIndexVec T) :=
  ws.foldl (fun acc p => acc.bind fun b => b.set p.1 p.2) (some a)

/-- Run a sequence of `set` calls starting from `NegativeIndexVec::new`. -/
def applyWrites (ws : List (Int × T)) : Option (NegativeIndexVec T) :=
  applyFrom new ws

/-- The value the write sequence `ws` leaves at index `i`: the last value
written there, `none` if `i` was never written. -/
def writesLookup (ws : List (Int × T)) (i : Int) : Option T :=
  ws.foldl (fun acc p => if p.1 = i then some p.2 else acc) none

end NegativeIndexVec

/-- Rust `struct Grid<T>` (mod.rs 96-104): two vectors of optional columns
plus the four bounding-box scalars. -/
structure Grid (T : Type) where
  positive : List (Option (NegativeIndexVec T))
  negative : List (Option (NegativeIndexVec T))
  min_x : Int
  max_x : Int
  min_y : Int
  max_y : Int
deriving DecidableEq

namespace Grid

variable {T : Type}

/-- `Grid::new` (mod.rs 125-134): empty column vectors, all bounds 0. -/
def new : Grid T := ⟨[], [], 0, 0, 0, 0⟩

/-- Trait method `NegativeIndexed::existence` as implemented for `Grid`
(mod.rs 8-16, 106-122), classifying an x coordinate against the column
vectors. -/
def existence (g : Grid T) (index : Int) : Existence :=
  if 0 ≤ index ∧ index.toNat < g.positive.length then .Positive
  else if index < 0 ∧ index.natAbs ≤ g.negative.length then .Negative
  else .Nonexistent

/-- Trait method `NegativeIndexed::assert_size` as implemented for `Grid`
(mod.rs 18-28, 106-122): grow the column vectors with `None` (no column)
slots. -/
def assert_size (g : Grid T) (size : Int) : Grid T :=
  if 0 ≤ size then { g with positive := padTo g.positive none (size.toNat + 1) }
  else { g with negative := padTo g.negative none size.natAbs }

/-- `Grid::assert_existence` (mod.rs 152-158): if the slot at `x` holds no
column, store a fresh `NegativeIndexVec::new` there.  Reading the slot
(`self.positive[x]`) panics when out of bounds, hence the `Option` result. -/
def assert_existence (g : Grid T) (x : Int) : Option (Grid T) :=
  if 0 ≤ x then
    match g.positive[x.toNat]? with
    | none => none
    | some slot =>
      if slot.isNone then
        some { g with positive := g.positive.set x.toNat (some NegativeIndexVec.new) }
      else some g
  else
    match g.negative[x.natAbs - 1]? with
    | none => none
    | some slot =>
      if slot.isNone then
        some { g with negative := g.negative.set (x.natAbs - 1) (some NegativeIndexVec.new) }
      else some g

/-- `Grid::update_boundaries` (mod.rs 160-172): widen `min_x`/`max_x` toward
`x` and `min_y`/`max_y` toward `y`, each through an `if`/`else if` chain. -/
def update_boundaries (g : Grid T) (x y : Int) : Grid T :=
  let g := if x < g.min_x then { g with min_x := x }
           else if x > g.max_x then { g with max_x := x }
           else g
  if y < g.min_y then { g with min_y := y }
  else if y > g.max_y then { g with max_y := y }
  else g

/-- `Grid::set` (mod.rs 174-187): grow the column vectors, create the column
at `x` if missing, update the bounding box, then delegate to the column's
`set(y, item)`.  The slot read and the `unwrap` can panic (`none`). -/
def set (g : Grid T) (x y : Int) (item : T) : Option (Grid T) := do
  let g := g.assert_size x
  let g ← g.assert_existence x
  let g := g.update_boundaries x y
  if 0 ≤ x then
    match g.positive[x.toNat]? with
    | none => none
    | some none => none
    | some (some col) => do
      let col ← col.set y item
      some { g with positive := g.positive.set x.toNat (some col) }
  else
    match g.negative[x.natAbs - 1]? with
    | none => none
    | some none => none
    | some (some col) => do
      let col ← col.set y item
      some { g with negative := g.negative.set (x.natAbs - 1) (some col) }

/-- `Grid::get` (mod.rs 189-195): classify `x`; for a Nonexistent `x` return
absent, otherwise `unwrap` the column slot (panic — `none` — if the slot
holds no column) and delegate to the column's `get(y)`. -/
def get (g : Grid T) (x y : Int) : Option (Option T) :=
  match g.existence x with
  | .Positive =>
    match g.positive[x.toNat]? with
    | none => none
    | some none => none
    | some (some col) => col.get y
  | .Negative =>
    match g.negative[x.natAbs - 1]? with
    | none => none
    | some none => none
    | some (some col) => col.get y
  | .Nonexistent => some none

/-- `Grid::get_mut` (mod.rs 197-206): same lookup as `get` through mutable
references; in this functional model it returns the value read. -/
def get_mut (g : Grid T) (x y : Int) : Option (Option T) :=
  match g.existence x with
  | .Positive =>
    match g.positive[x.toNat]? with
    | none => none
    | some none => none
    | some (some col) => col.get_mut y
  | .Negative =>
    match g.negative[x.natAbs - 1]? with
    | none => none
    | some none => none
    | some (some col) => col.get_mut y
  | .Nonexistent => some none

/-- Run a sequence of `Grid::set` calls starting from the grid `g`,
propagating a panic (`none`). -/
def applyFrom (g : Grid T) (ws : List (Int × Int × T)) : Option (Grid T) :=
  ws.foldl (fun acc p => acc.bind fun h => h.set p.1 p.2.1 p.2.2) (some g)

/-- Run a sequence of `Grid::set` calls starting from `Grid::new`. -/
def applyWrites (ws : List (Int × Int × T)) : Option (Grid T) :=
  applyFrom new ws

/-- The grid states reachable from `Grid::new` by a sequence of `set` calls
(each of which completed without a panic). -/
inductive Reachable : Grid T → Prop where
  | base : Reachable new
  | step {g g' : Grid T} (x y : Int) (v : T) :
      Reachable g → g.set x y v = some g' → Reachable g'

/-- The bounding box contains the origin. -/
def BoundsInv (g : Grid T) : Prop :=
  g.min_x ≤ 0 ∧ 0 ≤ g.max_x ∧ g.min_y ≤ 0 ∧ 0 ≤ g.max_y

end Grid

end RustGrid

namespace RustGrid

/-! ### Helper lemmas about `padTo` -/

theorem length_padTo {α : Type} (l : List α) (d : α) (n : Nat) :
    (padTo l d n).length = max l.length n := by
  simp [padTo]
  omega

theorem getD_padTo {α : Type} (l : List α) (d : α) (n i : Nat) :
    (padTo l d n).getD i d = l.getD i d := by
  unfold padTo
  rw [List.getD_eq_getElem?_getD, List.getD_eq_getElem?_getD, List.getElem?_append]
  by_cases h : i < l.length
  · simp [h]
  · simp only [h, if_false]
    rw [List.getElem?_eq_none (by omega : l.length ≤ i)]
    by_cases h2 : i - l.length < n - l.length
    · rw [List.getElem?_replicate]
      simp [h2]
    · rw [List.getElem?_eq_none (by simp; omega)]

theorem bindSomeEq {α β : Type} (a : α) (f : α → Option β) :
    (some a >>= f) = f a := rfl

theorem getElem?_padTo_lt {α : Type} (l : List α) (d : α) (n i : Nat)
    (h : i < l.length) : (padTo l d n)[i]? = l[i]? := by
  unfold padTo
  rw [List.getElem?_append]
  simp [h]

/-! ### Axis-level helper lemmas -/

namespace NegativeIndexVec

variable {T : Type}

/-- `get` never panics and computes exactly the abstract `content`. -/
theorem get_eq_content (a : NegativeIndexVec T) (i : Int) :
    a.get i = some (a.content i) := by
  unfold get existence content
  by_cases h1 : 0 ≤ i ∧ i.toNat < a.positive.length
  · simp only [h1, if_true, h1.1, List.getD_eq_getElem?_getD]
    rw [List.getElem?_eq_getElem h1.2]
    rfl
  · by_cases h2 : i < 0 ∧ i.natAbs ≤ a.negative.length
    · have hpos : ¬ 0 ≤ i := by omega
      simp only [h1, if_false, h2, if_true, hpos, List.getD_eq_getElem?_getD]
      rw [List.getElem?_eq_getElem (by omega : i.natAbs - 1 < a.negative.length)]
      rfl
    · simp only [h1, if_false, h2]
      by_cases hpos : 0 ≤ i
      · have : a.positive.length ≤ i.toNat := by omega
        rw [if_pos hpos, List.getD_eq_getElem?_getD, List.getElem?_eq_none this]
        rfl
      · have : a.negative.length ≤ i.natAbs - 1 := by omega
        rw [if_neg hpos, List.getD_eq_getElem?_getD, List.getElem?_eq_none this]
        rfl

/-- `get_mut` performs the same lookup as `get`. -/
theorem get_mut_eq_content (a : NegativeIndexVec T) (i : Int) :
    a.get_mut i = some (a.content i) := by
  have h := get_eq_content a i
  unfold get at h
  unfold get_mut
  exact h

/-- `set` always succeeds, writes `some v` at `i`, and leaves the content at
every other logical index unchanged. -/
theorem set_spec (a : NegativeIndexVec T) (i : Int) (v : T) :
    ∃ a', a.set i v = some a' ∧ a'.content i = some v ∧
      ∀ j, j ≠ i → a'.content j = a.content j := by
  unfold set assert_size
  by_cases hi : 0 ≤ i
  · have hlen : (padTo a.positive (none : Option T) (i.toNat + 1)).length =
        max a.positive.length (i.toNat + 1) := length_padTo _ _ _
    have hbound : i.toNat < (padTo a.positive (none : Option T) (i.toNat + 1)).length := by
      omega
    refine ⟨⟨(padTo a.positive none (i.toNat + 1)).set i.toNat (some v), a.negative⟩,
      ?_, ?_, ?_⟩
    · simp only [hi, if_true]
      rw [if_pos hbound]
    · unfold content
      rw [if_pos hi, List.getD_eq_getElem?_getD,
        List.getElem?_set_self (by simpa using hbound)]
      rfl
    · intro j hj
      unfold content
      by_cases hjpos : 0 ≤ j
      · have hne : i.toNat ≠ j.toNat := fun h => hj (by omega)
        rw [if_pos hjpos, if_pos hjpos, List.getD_eq_getElem?_getD,
          List.getElem?_set_ne hne, ← List.getD_eq_getElem?_getD, getD_padTo]
      · rw [if_neg hjpos, if_neg hjpos]
  · have hge : 1 ≤ i.natAbs := by omega
    have hlen : (padTo a.negative (none : Option T) i.natAbs).length =
        max a.negative.length i.natAbs := length_padTo _ _ _
    have hbound : i.natAbs - 1 < (padTo a.negative (none : Option T) i.natAbs).length := by
      omega
    refine ⟨⟨a.positive, (padTo a.negative none i.natAbs).set (i.natAbs - 1) (some v)⟩,
      ?_, ?_, ?_⟩
    · simp only [hi, if_false]
      rw [if_pos hbound]
    · unfold content
      rw [if_neg hi, List.getD_eq_getElem?_getD,
        List.getElem?_set_self (by simpa using hbound)]
      rfl
    · intro j hj
      unfold content
      by_cases hjpos : 0 ≤ j
      · rw [if_pos hjpos, if_pos hjpos]
      · have hne : i.natAbs - 1 ≠ j.natAbs - 1 := fun h => hj (by omega)
        rw [if_neg hjpos, if_neg hjpos, List.getD_eq_getElem?_getD,
          List.getElem?_set_ne hne, ← List.getD_eq_getElem?_getD, getD_padTo]

theorem foldl_bind_none {T : Type} (ws : List (Int × T)) :
    ws.foldl (fun acc p => acc.bind fun b => b.set p.1 p.2)
      (none : Option (NegativeIndexVec T)) = none := by
  induction ws with
  | nil => rfl
  | cons p ws ih => simpa using ih

theorem applyFrom_cons (a : NegativeIndexVec T) (p : Int × T) (ws : List (Int × T)) :
    applyFrom a (p :: ws) = (a.set p.1 p.2).bind fun b => applyFrom b ws := by
  unfold applyFrom
  cases h : a.set p.1 p.2 with
  | none => simp [List.foldl_cons, h, foldl_bind_none]
  | some b => simp [List.foldl_cons, h]

/-- Running a write sequence never panics, and the resulting content at any
index is the fold of the writes over the starting content. -/
theorem applyFrom_content (ws : List (Int × T)) (a : NegativeIndexVec T) (i : Int) :
    ∃ a', applyFrom a ws = some a' ∧
      a'.content i =
        ws.foldl (fun acc p => if p.1 = i then some p.2 else acc) (a.content i) := by
  induction ws generalizing a with
  | nil => exact ⟨a, rfl, rfl⟩
  | cons p ws ih =>
    obtain ⟨a₁, hset, hself, hframe⟩ := set_spec a p.1 p.2
    obtain ⟨a', happ, hcontent⟩ := ih a₁
    refine ⟨a', ?_, ?_⟩
    · rw [applyFrom_cons, hset]
      simpa using happ
    · rw [List.foldl_cons, hcontent]
      by_cases h : p.1 = i
      · subst h
        simp [hself]
      · rw [hframe i (fun hc => h hc.symm)]
        simp [h]

/-- The content of the empty axis is absent everywhere. -/
theorem content_new (i : Int) : (new : NegativeIndexVec T).content i = none := by
  unfold content new
  split <;> rfl

end NegativeIndexVec

/-! ### Grid-level helper lemmas -/

namespace Grid

variable {T : Type}

theorem assert_size_min_x (g : Grid T) (x : Int) : (g.assert_size x).min_x = g.min_x := by
  unfold assert_size
  split <;> rfl

theorem assert_size_max_x (g : Grid T) (x : Int) : (g.assert_size x).max_x = g.max_x := by
  unfold assert_size
  split <;> rfl

theorem assert_size_min_y (g : Grid T) (x : Int) : (g.assert_size x).min_y = g.min_y := by
  unfold assert_size
  split <;> rfl

theorem assert_size_max_y (g : Grid T) (x : Int) : (g.assert_size x).max_y = g.max_y := by
  unfold assert_size
  split <;> rfl

theorem ub_positive (g : Grid T) (x y : Int) :
    (g.update_boundaries x y).positive = g.positive := by
  unfold update_boundaries
  dsimp only
  split_ifs <;> rfl

theorem ub_negative (g : Grid T) (x y : Int) :
    (g.update_boundaries x y).negative = g.negative := by
  unfold update_boundaries
  dsimp only
  split_ifs <;> rfl

theorem ub_min_x (g : Grid T) (x y : Int) :
    (g.update_boundaries x y).min_x = if x < g.min_x then x else g.min_x := by
  unfold update_boundaries
  dsimp only
  split_ifs <;> rfl

theorem ub_max_x (g : Grid T) (x y : Int) :
    (g.update_boundaries x y).max_x =
      if x < g.min_x then g.max_x else if x > g.max_x then x else g.max_x := by
  unfold update_boundaries
  dsimp only
  split_ifs <;> rfl

theorem ub_min_y (g : Grid T) (x y : Int) :
    (g.update_boundaries x y).min_y = if y < g.min_y then y else g.min_y := by
  unfold update_boundaries
  dsimp only
  split_ifs <;> rfl

theorem ub_max_y (g : Grid T) (x y : Int) :
    (g.update_boundaries x y).max_y =
      if y < g.min_y then g.max_y else if y > g.max_y then y else g.max_y := by
  unfold update_boundaries
  dsimp only
  split_ifs <;> rfl

/-- When `0 ≤ x` and the slot index is in range, `assert_existence` succeeds,
changes no field except possibly the slot at `x`, and leaves a present column
at `x`. -/
theorem assert_existence_pos (g : Grid T) (x : Int) (hx0 : 0 ≤ x)
    (hlt : x.toNat < g.positive.length) :
    ∃ g' col, g.assert_existence x = some g' ∧
      g'.positive[x.toNat]? = some (some col) ∧
      g'.positive.length = g.positive.length ∧
      g'.negative = g.negative ∧
      g'.min_x = g.min_x ∧ g'.max_x = g.max_x ∧
      g'.min_y = g.min_y ∧ g'.max_y = g.max_y := by
  cases hslot : g.positive[x.toNat] with
  | none =>
    refine ⟨{ g with positive := g.positive.set x.toNat (some NegativeIndexVec.new) },
      NegativeIndexVec.new, ?_, ?_, by simp, rfl, rfl, rfl, rfl, rfl⟩
    · unfold assert_existence
      rw [if_pos hx0, List.getElem?_eq_getElem hlt, hslot]
      rfl
    · simp [List.getElem?_set_self, hlt]
  | some c =>
    refine ⟨g, c, ?_, ?_, rfl, rfl, rfl, rfl, rfl, rfl⟩
    · unfold assert_existence
      rw [if_pos hx0, List.getElem?_eq_getElem hlt, hslot]
      rfl
    · rw [List.getElem?_eq_getElem hlt, hslot]

/-- The negative-side analogue of `assert_existence_pos`. -/
theorem assert_existence_neg (g : Grid T) (x : Int) (hx0 : ¬ 0 ≤ x)
    (hlt : x.natAbs - 1 < g.negative.length) :
    ∃ g' col, g.assert_existence x = some g' ∧
      g'.negative[x.natAbs - 1]? = some (some col) ∧
      g'.negative.length = g.negative.length ∧
      g'.positive = g.positive ∧
      g'.min_x = g.min_x ∧ g'.max_x = g.max_x ∧
      g'.min_y = g.min_y ∧ g'.max_y = g.max_y := by
  cases hslot : g.negative[x.natAbs - 1] with
  | none =>
    refine ⟨{ g with negative := g.negative.set (x.natAbs - 1) (some NegativeIndexVec.new) },
      NegativeIndexVec.new, ?_, ?_, by simp, rfl, rfl, rfl, rfl, rfl⟩
    · unfold assert_existence
      rw [if_neg hx0, List.getElem?_eq_getElem hlt, hslot]
      rfl
    · simp [List.getElem?_set_self, hlt]
  | some c =>
    refine ⟨g, c, ?_, ?_, rfl, rfl, rfl, rfl, rfl, rfl⟩
    · unfold assert_existence
      rw [if_neg hx0, List.getElem?_eq_getElem hlt, hslot]
      rfl
    · rw [List.getElem?_eq_getElem hlt, hslot]

/-- `Grid::set` always succeeds and updates the four bounds exactly as
`update_boundaries` does on the pre-write bounds. -/
theorem set_bounds_spec (g : Grid T) (x y : Int) (v : T) :
    ∃ g', g.set x y v = some g' ∧
      g'.min_x = (if x < g.min_x then x else g.min_x) ∧
      g'.max_x = (if x < g.min_x then g.max_x else if x > g.max_x then x else g.max_x) ∧
      g'.min_y = (if y < g.min_y then y else g.min_y) ∧
      g'.max_y = (if y < g.min_y then g.max_y else if y > g.max_y then y else g.max_y) := by
  by_cases hx : 0 ≤ x
  · have hlen : x.toNat < (g.assert_size x).positive.length := by
      unfold assert_size
      rw [if_pos hx]
      dsimp only
      rw [length_padTo]
      omega
    obtain ⟨g₂, col, hae, hslot, hplen, hneg, hmnx, hmxx, hmny, hmxy⟩ :=
      assert_existence_pos (g.assert_size x) x hx hlen
    obtain ⟨col', hcset, -, -⟩ := NegativeIndexVec.set_spec col y v
    refine ⟨{ g₂.update_boundaries x y with
        positive := (g₂.update_boundaries x y).positive.set x.toNat (some col') }, ?_,
      ?_, ?_, ?_, ?_⟩
    · unfold Grid.set
      dsimp only
      rw [hae, bindSomeEq]
      rw [if_pos hx, ub_positive, hslot]
      dsimp only
      rw [hcset, bindSomeEq]
    · dsimp only
      rw [ub_min_x, hmnx, assert_size_min_x]
    · dsimp only
      rw [ub_max_x, hmnx, hmxx, assert_size_min_x, assert_size_max_x]
    · dsimp only
      rw [ub_min_y, hmny, assert_size_min_y]
    · dsimp only
      rw [ub_max_y, hmny, hmxy, assert_size_min_y, assert_size_max_y]
  · have hlen : x.natAbs - 1 < (g.assert_size x).negative.length := by
      unfold assert_size
      rw [if_neg hx]
      dsimp only
      rw [length_padTo]
      omega
    obtain ⟨g₂, col, hae, hslot, hplen, hpos, hmnx, hmxx, hmny, hmxy⟩ :=
      assert_existence_neg (g.assert_size x) x hx hlen
    obtain ⟨col', hcset, -, -⟩ := NegativeIndexVec.set_spec col y v
    refine ⟨{ g₂.update_boundaries x y with
        negative := (g₂.update_boundaries x y).negative.set (x.natAbs - 1) (some col') }, ?_,
      ?_, ?_, ?_, ?_⟩
    · unfold Grid.set
      dsimp only
      rw [hae, bindSomeEq]
      rw [if_neg hx, ub_negative, hslot]
      dsimp only
      rw [hcset, bindSomeEq]
    · dsimp only
      rw [ub_min_x, hmnx, assert_size_min_x]
    · dsimp only
      rw [ub_max_x, hmnx, hmxx, assert_size_min_x, assert_size_max_x]
    · dsimp only
      rw [ub_min_y, hmny, assert_size_min_y]
    · dsimp only
      rw [ub_max_y, hmny, hmxy, assert_size_min_y, assert_size_max_y]

theorem grid_foldl_bind_none (ws : List (Int × Int × T)) :
    ws.foldl (fun acc p => acc.bind fun h => h.set p.1 p.2.1 p.2.2)
      (none : Option (Grid T)) = none := by
  induction ws with
  | nil => rfl
  | cons p ws ih => simpa using ih

theorem grid_applyFrom_cons (g : Grid T) (p : Int × Int × T) (ws : List (Int × Int × T)) :
    applyFrom g (p :: ws) = (g.set p.1 p.2.1 p.2.2).bind fun h => applyFrom h ws := by
  unfold applyFrom
  cases h : g.set p.1 p.2.1 p.2.2 with
  | none => simp [List.foldl_cons, h, grid_foldl_bind_none]
  | some b => simp [List.foldl_cons, h]

/-- Every reachable grid keeps the origin inside its bounding box. -/
theorem reachable_boundsInv {g : Grid T} (h : Reachable g) : BoundsInv g := by
  induction h with
  | base => exact ⟨le_refl 0, le_refl 0, le_refl 0, le_refl 0⟩
  | step x y v hr hset ih =>
    rename_i g₀ g₁
    obtain ⟨g', hset', hmnx, hmxx, hmny, hmxy⟩ := set_bounds_spec g₀ x y v
    rw [hset] at hset'
    cases hset'
    obtain ⟨i1, i2, i3, i4⟩ := ih
    refine ⟨?_, ?_, ?_, ?_⟩
    · rw [hmnx]; split_ifs <;> omega
    · rw [hmxx]; split_ifs <;> omega
    · rw [hmny]; split_ifs <;> omega
    · rw [hmxy]; split_ifs <;> omega

/-- Under the origin-in-box invariant, a write grows each bound to the
min/max with the written coordinate. -/
theorem set_bounds_minmax (g : Grid T) (x y : Int) (v : T) (hinv : BoundsInv g) :
    ∃ g', g.set x y v = some g' ∧
      g'.min_x = min g.min_x x ∧ g'.max_x = max g.max_x x ∧
      g'.min_y = min g.min_y y ∧ g'.max_y = max g.max_y y ∧ BoundsInv g' := by
  obtain ⟨i1, i2, i3, i4⟩ := hinv
  obtain ⟨g', hset', hmnx, hmxx, hmny, hmxy⟩ := set_bounds_spec g x y v
  refine ⟨g', hset', ?_, ?_, ?_, ?_, ?_, ?_, ?_, ?_⟩ <;>
    [skip; skip; skip; skip; rw [hmnx]; rw [hmxx]; rw [hmny]; rw [hmxy]] <;>
    [rw [hmnx]; rw [hmxx]; rw [hmny]; rw [hmxy]; skip; skip; skip; skip] <;>
    split_ifs <;> omega

/-- Folding a write sequence over a grid satisfying the invariant never
panics and drives each bound to the fold of min/max over the written
coordinates. -/
theorem applyFrom_bounds (ws : List (Int × Int × T)) (g : Grid T) (hinv : BoundsInv g) :
    ∃ g', applyFrom g ws = some g' ∧
      g'.min_x = (ws.map fun p => p.1).foldl min g.min_x ∧
      g'.max_x = (ws.map fun p => p.1).foldl max g.max_x ∧
      g'.min_y = (ws.map fun p => p.2.1).foldl min g.min_y ∧
      g'.max_y = (ws.map fun p => p.2.1).foldl max g.max_y := by
  induction ws generalizing g with
  | nil => exact ⟨g, rfl, rfl, rfl, rfl, rfl⟩
  | cons p ws ih =>
    obtain ⟨g₁, hset, hmnx, hmxx, hmny, hmxy, hinv₁⟩ := set_bounds_minmax g p.1 p.2.1 p.2.2 hinv
    obtain ⟨g', happ, e1, e2, e3, e4⟩ := ih g₁ hinv₁
    refine ⟨g', ?_, ?_, ?_, ?_, ?_⟩
    · rw [grid_applyFrom_cons, hset]
      simpa using happ
    · rw [List.map_cons, List.foldl_cons, e1, hmnx]
    · rw [List.map_cons, List.foldl_cons, e2, hmxx]
    · rw [List.map_cons, List.foldl_cons, e3, hmny]
    · rw [List.map_cons, List.foldl_cons, e4, hmxy]

end Grid

/-! ### Claim theorems -/

/-- C1: the claim asserts that whenever `x` is classified Positive or
Negative, the column slot at `x` holds a present column, so `Grid::get`'s
`unwrap` never fails on any state reachable from `Grid::new` by `set` calls.
The code violates this: from a new grid, `set(1, 0, 5)` grows the positive
column vector to length 2 with an empty slot at 0, so `x = 0` is classified
Positive while its slot holds no column, and `get(0, 0)` panics on the
`unwrap` (the `none` result) instead of returning absent. -/
theorem C1_get_unwrap_panics :
    (Grid.applyWrites [((1 : Int), (0 : Int), (5 : Nat))]).isSome = true ∧
    (Grid.applyWrites [((1 : Int), (0 : Int), (5 : Nat))]).map
      (fun g => g.existence 0) = some Existence.Positive ∧
    (Grid.applyWrites [((1 : Int), (0 : Int), (5 : Nat))]).bind
      (fun g => g.get 0 0) = none :=
  ⟨by decide, by decide, by decide⟩

/-- C2 (counterexample): the claim says `min_x` equals the minimum `x` ever
written.  After the single write `set(1, 1, 5)` the minimum written `x` is 1,
but `min_x` is still 0 (the bounds start at the origin and only widen). -/
theorem C2_counterexample :
    (Grid.applyWrites [((1 : Int), (1 : Int), (5 : Nat))]).map Grid.min_x = some 0 ∧
    (Grid.applyWrites [((1 : Int), (1 : Int), (5 : Nat))]).map Grid.min_x ≠ some 1 :=
  ⟨by decide, by decide⟩

/-- C2 (amended): after any sequence of `set` calls the four scalars describe
the smallest axis-aligned box containing the origin together with every
`(x, y)` pair ever written: each bound is the min resp. max of 0 and the
written coordinates. -/
theorem C2_bounds_are_minmax_with_origin {T : Type} (ws : List (Int × Int × T)) :
    ∃ g, Grid.applyWrites ws = some g ∧
      g.min_x = (ws.map fun p => p.1).foldl min 0 ∧
      g.max_x = (ws.map fun p => p.1).foldl max 0 ∧
      g.min_y = (ws.map fun p => p.2.1).foldl min 0 ∧
      g.max_y = (ws.map fun p => p.2.1).foldl max 0 :=
  Grid.applyFrom_bounds ws Grid.new ⟨le_refl 0, le_refl 0, le_refl 0, le_refl 0⟩

/-- C3: for every sequence of axis writes over any mix of positive, negative
and zero indices, no write panics, and `get i` afterwards returns exactly the
last value written at `i` (absent when `i` was never written — in particular
for every unwritten index inside the grown range). -/
theorem C3_axis_round_trip {T : Type} (ws : List (Int × T)) (i : Int) :
    ∃ a, NegativeIndexVec.applyWrites ws = some a ∧
      a.get i = some (NegativeIndexVec.writesLookup ws i) := by
  obtain ⟨a, happ, hc⟩ :=
    NegativeIndexVec.applyFrom_content ws NegativeIndexVec.new i
  refine ⟨a, happ, ?_⟩
  rw [NegativeIndexVec.get_eq_content, hc, NegativeIndexVec.content_new]
  rfl

/-- C4: from any reachable grid state, `set(x, y, v)` succeeds and
immediately afterwards `min_x ≤ x ≤ max_x` and `min_y ≤ y ≤ max_y` hold;
moreover the write never increases `min_x`/`min_y` and never decreases
`max_x`/`max_y` (so across subsequent writes the box never shrinks). -/
theorem C4_bounds_contain_writes {T : Type} (g : Grid T) (x y : Int) (v : T)
    (hr : Grid.Reachable g) :
    ∃ g', g.set x y v = some g' ∧
      g'.min_x ≤ x ∧ x ≤ g'.max_x ∧ g'.min_y ≤ y ∧ y ≤ g'.max_y ∧
      g'.min_x ≤ g.min_x ∧ g.max_x ≤ g'.max_x ∧
      g'.min_y ≤ g.min_y ∧ g.max_y ≤ g'.max_y := by
  obtain ⟨g', hset, e1, e2, e3, e4, -⟩ :=
    Grid.set_bounds_minmax g x y v (Grid.reachable_boundsInv hr)
  exact ⟨g', hset, by rw [e1]; omega, by rw [e2]; omega, by rw [e3]; omega,
    by rw [e4]; omega, by rw [e1]; omega, by rw [e2]; omega, by rw [e3]; omega,
    by rw [e4]; omega⟩

/-- C4 witness: the theorem applied to the concrete reachable state
`Grid::new` and the write `set(3, -2, 7)`. -/
theorem C4_bounds_contain_writes_witness :
    ∃ g', (Grid.new : Grid Nat).set 3 (-2) 7 = some g' ∧
      g'.min_x ≤ 3 ∧ 3 ≤ g'.max_x ∧ g'.min_y ≤ -2 ∧ -2 ≤ g'.max_y ∧
      g'.min_x ≤ (Grid.new : Grid Nat).min_x ∧
      (Grid.new : Grid Nat).max_x ≤ g'.max_x ∧
      g'.min_y ≤ (Grid.new : Grid Nat).min_y ∧
      (Grid.new : Grid Nat).max_y ≤ g'.max_y :=
  C4_bounds_contain_writes Grid.new 3 (-2) 7 Grid.Reachable.base

/-- C5: for an axis with non-negative side of length `n` and negative side of
length `m`, `existence i` is Positive exactly for `0 ≤ i ≤ n - 1`, Negative
exactly for `-m ≤ i ≤ -1` (so `-m` is Negative but `-(m+1)` is Nonexistent),
and Nonexistent for every other integer. -/
theorem C5_existence_classification {T : Type} (a : NegativeIndexVec T) (i : Int) :
    (a.existence i = Existence.Positive ↔
      0 ≤ i ∧ i ≤ (a.positive.length : Int) - 1) ∧
    (a.existence i = Existence.Negative ↔
      -(a.negative.length : Int) ≤ i ∧ i ≤ -1) ∧
    (a.existence i = Existence.Nonexistent ↔
      ¬ (0 ≤ i ∧ i ≤ (a.positive.length : Int) - 1) ∧
      ¬ (-(a.negative.length : Int) ≤ i ∧ i ≤ -1)) := by
  unfold NegativeIndexVec.existence
  split_ifs with h1 h2 <;> refine ⟨?_, ?_, ?_⟩ <;> simp <;> omega

/-- C5 witness: the classification at the negative boundary of a concrete
axis with `n = 1`, `m = 2`: index `-2` is Negative. -/
theorem C5_existence_classification_witness :
    NegativeIndexVec.existence (⟨[some 3], [none, none]⟩ : NegativeIndexVec Nat) (-2)
      = Existence.Negative :=
  ((C5_existence_classification ⟨[some 3], [none, none]⟩ (-2)).2.1).mpr (by decide)

/-- C6: `assert_size` with `index ≥ 0` appends empty slots to the
non-negative side until its length strictly exceeds `index` (exactly
`index + 1 - len` of them), leaving the negative side and every existing slot
untouched; with `index < 0` it symmetrically pads the negative side to length
`|index|`; and it is a no-op when the relevant side is already large
enough. -/
theorem C6_assert_size_spec {T : Type} (a : NegativeIndexVec T) (i : Int) :
    (0 ≤ i →
      (a.assert_size i).positive =
        a.positive ++ List.replicate (i.toNat + 1 - a.positive.length) none ∧
      (a.assert_size i).negative = a.negative ∧
      (a.assert_size i).positive.length = max a.positive.length (i.toNat + 1) ∧
      (i < (a.positive.length : Int) → a.assert_size i = a)) ∧
    (i < 0 →
      (a.assert_size i).negative =
        a.negative ++ List.replicate (i.natAbs - a.negative.length) none ∧
      (a.assert_size i).positive = a.positive ∧
      (a.assert_size i).negative.length = max a.negative.length i.natAbs ∧
      (i.natAbs ≤ a.negative.length → a.assert_size i = a)) := by
  constructor
  · intro hi
    have hs : a.assert_size i = { a with positive := padTo a.positive none (i.toNat + 1) } := by
      unfold NegativeIndexVec.assert_size
      rw [if_pos hi]
    refine ⟨by rw [hs]; rfl, by rw [hs], by rw [hs]; exact length_padTo _ _ _, ?_⟩
    · intro hlt
      rw [hs]
      unfold padTo
      rw [Nat.sub_eq_zero_of_le (by omega), List.replicate_zero, List.append_nil]
  · intro hi
    have hs : a.assert_size i = { a with negative := padTo a.negative none i.natAbs } := by
      unfold NegativeIndexVec.assert_size
      rw [if_neg (by omega)]
    refine ⟨by rw [hs]; rfl, by rw [hs], by rw [hs]; exact length_padTo _ _ _, ?_⟩
    · intro hle
      rw [hs]
      unfold padTo
      rw [Nat.sub_eq_zero_of_le (by omega), List.replicate_zero, List.append_nil]

/-- C6 witness: growing a concrete one-slot axis to include index 2 appends
two empty slots to the non-negative side. -/
theorem C6_assert_size_spec_witness :
    (NegativeIndexVec.assert_size (⟨[some 3], []⟩ : NegativeIndexVec Nat) 2).positive =
      [some 3] ++ List.replicate 2 none :=
  ((C6_assert_size_spec ⟨[some 3], []⟩ 2).1 (by decide)).1

/-- C7: `NegativeIndexVec::set` is total: for every index and axis state the
growth step leaves the mapped slot in bounds, so the write succeeds (never
panics). -/
theorem C7_set_total {T : Type} (a : NegativeIndexVec T) (i : Int) (v : T) :
    (a.set i v).isSome = true ∧
    (0 ≤ i → i.toNat < (a.assert_size i).positive.length) ∧
    (i < 0 → i.natAbs - 1 < (a.assert_size i).negative.length) := by
  obtain ⟨a', hset, -, -⟩ := NegativeIndexVec.set_spec a i v
  refine ⟨by rw [hset]; rfl, ?_, ?_⟩
  · intro hi
    unfold NegativeIndexVec.assert_size
    rw [if_pos hi]
    dsimp only
    rw [length_padTo]
    omega
  · intro hi
    unfold NegativeIndexVec.assert_size
    rw [if_neg (by omega)]
    dsimp only
    rw [length_padTo]
    omega

/-- C7 witness: a concrete negative-index write on the empty axis succeeds. -/
theorem C7_set_total_witness :
    (NegativeIndexVec.set (⟨[], []⟩ : NegativeIndexVec Nat) (-5) 2).isSome = true :=
  (C7_set_total ⟨[], []⟩ (-5) 2).1

/-- C8: the claim asserts that `set(x, y, v)` leaves `get(x', y')` unchanged
for every `x' ≠ x`.  The code violates it through the same missing-column
panic as C1: on a new grid, `get(1, 0)` returns absent, but after `set(2, 0,
5)` (a write to the distinct column `x = 2`) the same read panics on the
`unwrap` of the still-empty column slot at `x' = 1`, which the write brought
into the classified range.  (No stored value is altered — the write sequence
changes only the panic behaviour of the read.) -/
theorem C8_cross_column_get_changes :
    (Grid.new : Grid Nat).get 1 0 = some none ∧
    ((Grid.new : Grid Nat).set 2 0 5).isSome = true ∧
    ((Grid.new : Grid Nat).set 2 0 5).bind (fun g => g.get 1 0) = none :=
  ⟨by decide, by decide, by decide⟩

/-- C9: every grid state reachable from `Grid::new` by `set` calls keeps the
origin inside the bounding box: `min_x ≤ 0 ≤ max_x` and `min_y ≤ 0 ≤ max_y`,
even when no coordinate of that sign (or 0) was ever written. -/
theorem C9_origin_in_box {T : Type} (g : Grid T) (hr : Grid.Reachable g) :
    g.min_x ≤ 0 ∧ 0 ≤ g.max_x ∧ g.min_y ≤ 0 ∧ 0 ≤ g.max_y :=
  Grid.reachable_boundsInv hr

/-- C9 witness: the theorem applied to the reachable state `Grid::new`. -/
theorem C9_origin_in_box_witness :
    (Grid.new : Grid Nat).min_x ≤ 0 ∧ 0 ≤ (Grid.new : Grid Nat).max_x ∧
    (Grid.new : Grid Nat).min_y ≤ 0 ∧ 0 ≤ (Grid.new : Grid Nat).max_y :=
  C9_origin_in_box Grid.new Grid.Reachable.base

/-- C10: `NegativeIndexVec::get` and `get_mut` are total for every index and
every axis state — the existence classification exactly guards the vector
indexing, so neither can index out of bounds — and both return absent for a
Nonexistent index (without mutating the axis, which the functional model
makes implicit). -/
theorem C10_get_total {T : Type} (a : NegativeIndexVec T) (i : Int) :
    (a.get i).isSome = true ∧ (a.get_mut i).isSome = true ∧
    (a.existence i = Existence.Nonexistent →
      a.get i = some none ∧ a.get_mut i = some none) := by
  refine ⟨by rw [NegativeIndexVec.get_eq_content]; rfl,
    by rw [NegativeIndexVec.get_mut_eq_content]; rfl, ?_⟩
  intro h
  unfold NegativeIndexVec.get NegativeIndexVec.get_mut
  rw [h]
  exact ⟨rfl, rfl⟩

/-- C10 witness: a concrete Nonexistent lookup on an axis whose negative side
alone is grown. -/
theorem C10_get_total_witness :
    NegativeIndexVec.get (⟨[], [some 4]⟩ : NegativeIndexVec Nat) 7 = some none ∧
    NegativeIndexVec.get_mut (⟨[], [some 4]⟩ : NegativeIndexVec Nat) 7 = some none :=
  (C10_get_total ⟨[], [some 4]⟩ 7).2.2 (by decide)

end RustGrid
